import Mathlib

/-!
Shallow embedding of src/src/fswatcher/filesystemwatcher.cpp
(class FileSystemWatcher and its PrivateData).

Modelling conventions:
* QDir is modelled by its absolute path (QDir::absolutePath()).
  A default-constructed QDir() resolves to the process working directory;
  it is passed in as the parameter defaultDir.
* std::map<int, QDir> watchFdMap is modelled as a key-sorted association
  list; operator[] (which default-inserts a QDir() when the key is absent,
  as on line 75 of the source) is mapFindOrInsert, erase is mapErase,
  assignment through operator[] is mapInsert, begin() is the list head.
* The OS facility is an oracle: inotify_add_watch is the parameter
  addWatch (returning the new watch fd or an errno), inotify_rm_watch is
  rmWatch, and one call to read(fd, buffer, 4096) is summarised by a
  ReadOutcome: either rv > 0 together with the records the buffer holds in
  buffer order (the byte-level cursor arithmetic of lines 69-80 walks the
  concatenated records exactly once, front to back), or rv = 0, or
  rv = -1 with an errno. libc strerror is the parameter strerror.
* QTimer eventsLoopTimer is modelled by the flag timerActive
  (start() sets it, stop() clears it).
* Writing a diagnostic to std::cerr is modelled by returning the list of
  lines written.
* A C++ throw of FileSystemWatcherError is Except.error.
-/

namespace FSWatcher

/-- Constant IN_CLOSE_WRITE from sys/inotify.h: a file opened for writing was closed. -/
def IN_CLOSE_WRITE : Nat := 0x00000008

/-- Constant IN_MOVED_FROM from sys/inotify.h: an entry was moved out of the directory. -/
def IN_MOVED_FROM : Nat := 0x00000040

/-- Constant IN_MOVED_TO from sys/inotify.h: an entry was moved into the directory. -/
def IN_MOVED_TO : Nat := 0x00000080

/-- Constant IN_MOVE from sys/inotify.h: either direction of a move. -/
def IN_MOVE : Nat := IN_MOVED_FROM ||| IN_MOVED_TO

/-- Constant IN_DELETE from sys/inotify.h: an entry was deleted. -/
def IN_DELETE : Nat := 0x00000200

/-- Errno value EAGAIN on Linux. -/
def EAGAIN : Nat := 11

/-- Mask fileChangeEvents of enum EVENT_TYPES (source line 28):
events that indicate file creations, modifications etc. -/
def fileChangeEvents : Nat := IN_CLOSE_WRITE ||| IN_MOVE

/-- Mask fileRemovalEvents of enum EVENT_TYPES (source line 30):
events that indicate a file removal from a directory. -/
def fileRemovalEvents : Nat := IN_DELETE ||| IN_MOVED_FROM

/-- Model of QDir: identified by its absolute path. -/
structure QDir where
  absolutePath : String
  deriving Repr, DecidableEq

/-- Model of the exception class FileSystemWatcherError (carries a message). -/
structure FileSystemWatcherError where
  message : String
  deriving Repr, DecidableEq

/-- Model of struct inotify_event as laid out in the read buffer: the watch
descriptor it pertains to, the event mask, the declared length of the trailing
name field (including padding; it drives the parse cursor on line 79), and the
name itself. -/
structure RawRecord where
  wd : Int
  mask : Nat
  len : Nat
  name : String
  deriving Repr, DecidableEq

/-- Model of class INotifyEvent (source lines 15-22). -/
structure INotifyEvent where
  mask : Nat
  path : String
  deriving Repr, DecidableEq

/-- Semantic event emitted by FileSystemWatcher::readEvents: the signals
fileChanged(path) and fileRemoved(path). -/
inductive SemanticEvent where
  | fileChanged (path : String)
  | fileRemoved (path : String)
  deriving Repr, DecidableEq

/-- Outcome of one read(fd, buffer, 4096) call on the non-blocking inotify fd:
data rv > 0 (with the records the buffer contains, in buffer order),
zeroBytes for rv = 0, failure errnoVal for rv = -1. -/
inductive ReadOutcome where
  | data (records : List RawRecord)
  | zeroBytes
  | failure (errnoVal : Nat)
  deriving Repr, DecidableEq

/-- Model of the private state of FileSystemWatcher::PrivateData. -/
structure PrivateData where
  watchedDirectories : List QDir
  timerActive : Bool
  watchFdMap : List (Int × QDir)
  deriving Repr, DecidableEq

/-- Lookup in the watch-fd map (std::map::find semantics). -/
def mapLookup (k : Int) : List (Int × QDir) → Option QDir
  | [] => none
  | (k2, v) :: rest => if k = k2 then some v else mapLookup k rest

/-- Sorted insertion, overwriting an existing entry: the effect of the
assignment watchFdMap[watchFd] = directory (source line 110). -/
def mapInsert (k : Int) (v : QDir) : List (Int × QDir) → List (Int × QDir)
  | [] => [(k, v)]
  | (k2, v2) :: rest =>
      if k < k2 then (k, v) :: (k2, v2) :: rest
      else if k = k2 then (k, v) :: rest
      else (k2, v2) :: mapInsert k v rest

/-- Removal of a key: the effect of watchFdMap.erase(watchFd) (source line 132). -/
def mapErase (k : Int) (m : List (Int × QDir)) : List (Int × QDir) :=
  m.filter (fun p => p.1 ≠ k)

/-- Model of std::map::operator[] as used on source line 75: return the mapped
directory, default-inserting a QDir() (which resolves to the process working
directory, defaultDir) when the key is absent. Returns the value and the
possibly-extended map. -/
def mapFindOrInsert (defaultDir : QDir) (k : Int) (m : List (Int × QDir)) :
    QDir × List (Int × QDir) :=
  match mapLookup k m with
  | some v => (v, m)
  | none => (defaultDir, mapInsert k defaultDir m)

/-- The record loop of readEventsFromFd (source lines 69-80): walk the records
in buffer order, resolve each watch descriptor through operator[] on
watchFdMap (threading the map, since operator[] may insert), and build one
INotifyEvent per record with path directory.absolutePath() + "/" + name. -/
def processRecords (defaultDir : QDir) :
    List RawRecord → List (Int × QDir) → List INotifyEvent × List (Int × QDir)
  | [], m => ([], m)
  | r :: rest, m =>
      let (directory, m2) := mapFindOrInsert defaultDir r.wd m
      let (events, m3) := processRecords defaultDir rest m2
      (⟨r.mask, directory.absolutePath ++ "/" ++ r.name⟩ :: events, m3)

/-- Model of FileSystemWatcher::PrivateData::readEventsFromFd (source lines
43-83): rv = 0 throws "read() on inotify FD must never return 0"; rv = -1
returns no events when errno is EAGAIN and throws
"Failed to read from inotify fd: " + strerror(errno) otherwise; rv > 0 parses
the buffer into events. -/
def readEventsFromFd (strerror : Nat → String) (defaultDir : QDir)
    (outcome : ReadOutcome) (d : PrivateData) :
    Except FileSystemWatcherError (List INotifyEvent × PrivateData) :=
  match outcome with
  | .zeroBytes => .error ⟨"read() on inotify FD must never return 0"⟩
  | .failure e =>
      if e = EAGAIN then .ok ([], d)
      else .error ⟨"Failed to read from inotify fd: " ++ strerror e⟩
  | .data records =>
      let (events, m) := processRecords defaultDir records d.watchFdMap
      .ok (events, { d with watchFdMap := m })

/-- The classification of one INotifyEvent performed inside the loop of
FileSystemWatcher::readEvents (source lines 187-195): a mask intersecting
fileChangeEvents emits fileChanged, else one intersecting fileRemovalEvents
emits fileRemoved, else nothing. -/
def classifyEvent (event : INotifyEvent) : Option SemanticEvent :=
  if event.mask &&& fileChangeEvents ≠ 0 then some (.fileChanged event.path)
  else if event.mask &&& fileRemovalEvents ≠ 0 then some (.fileRemoved event.path)
  else none

/-- Model of FileSystemWatcher::readEvents (source lines 184-196), the poll
entry point: read the events from the fd (propagating any throw) and emit, in
order, the classified signal for each. Returns the emitted events in emission
order together with the resulting state. -/
def readEvents (strerror : Nat → String) (defaultDir : QDir)
    (outcome : ReadOutcome) (d : PrivateData) :
    Except FileSystemWatcherError (List SemanticEvent × PrivateData) :=
  match readEventsFromFd strerror defaultDir outcome d with
  | .error err => .error err
  | .ok (events, d2) => .ok (events.filterMap classifyEvent, d2)

/-- Model of FileSystemWatcher::PrivateData::startWatching(const QDir&)
(source lines 93-114). fsExists models QDir::exists, addWatch models
inotify_add_watch (ok watchFd or error errno). Returns the boolean result,
the lines written to std::cerr, and the new state. -/
def startWatching1 (fsExists : String → Bool) (addWatch : String → Except Nat Int)
    (strerror : Nat → String) (d : PrivateData) (directory : QDir) :
    Bool × List String × PrivateData :=
  if fsExists directory.absolutePath = false then
    (true,
     ["Warning: directory " ++ directory.absolutePath ++ " does not exist, skipping"],
     d)
  else
    match addWatch directory.absolutePath with
    | .error e => (false, ["Failed to start watching: " ++ strerror e], d)
    | .ok watchFd =>
        (true, [],
         { d with watchFdMap := mapInsert watchFd directory d.watchFdMap,
                  timerActive := true })

/-- Model of FileSystemWatcher::PrivateData::stopWatching(int) (source lines
125-136). rmWatch models inotify_rm_watch. On failure the state is untouched;
on success the entry is erased and the timer stopped. -/
def stopWatching1 (rmWatch : Int → Except Nat Unit) (strerror : Nat → String)
    (d : PrivateData) (watchFd : Int) : Bool × List String × PrivateData :=
  match rmWatch watchFd with
  | .error e => (false, ["Failed to stop watching: " ++ strerror e], d)
  | .ok _ =>
      (true, [],
       { d with watchFdMap := mapErase watchFd d.watchFdMap,
                timerActive := false })

/-- Model of the bulk FileSystemWatcher::PrivateData::stopWatching() (source
lines 138-151): while the map is nonempty, take begin() and stop that watch
fd, returning false as soon as one stop fails; when the map is drained, stop
the timer once more and return true. -/
def stopWatchingAll (rmWatch : Int → Except Nat Unit) (strerror : Nat → String)
    (d : PrivateData) : Bool × List String × PrivateData :=
  match h : d.watchFdMap with
  | [] => (true, [], { d with timerActive := false })
  | (watchFd, _) :: _ =>
      let res := stopWatching1 rmWatch strerror d watchFd
      if res.1 = false then res
      else
        let r := stopWatchingAll rmWatch strerror res.2.2
        (r.1, res.2.1 ++ r.2.1, r.2.2)
  termination_by d.watchFdMap.length
  decreasing_by
    rename_i hne
    replace hne : ¬(stopWatching1 rmWatch strerror d watchFd).1 = false := hne
    rcases hrw : rmWatch watchFd with e | u
    · simp [stopWatching1, hrw] at hne
    · simp [stopWatching1, hrw, mapErase, h]
      exact Nat.lt_succ_of_le (List.length_filter_le _ _)

/-- Specification-side description of the event the spec demands for one raw
record, resolved against a fixed registration table: the record's handle is
looked up, the path is the directory's absolute path + "/" + the record's
name, and the flag bitmask selects Changed, else Removed, else nothing. -/
def specEmission (m : List (Int × QDir)) (r : RawRecord) : Option SemanticEvent :=
  match mapLookup r.wd m with
  | none => none
  | some dir =>
      if r.mask &&& fileChangeEvents ≠ 0 then
        some (.fileChanged (dir.absolutePath ++ "/" ++ r.name))
      else if r.mask &&& fileRemovalEvents ≠ 0 then
        some (.fileRemoved (dir.absolutePath ++ "/" ++ r.name))
      else none

/-! Helper lemmas about the association-list operations. -/

lemma string_data_append (a b : String) : (a ++ b).data = a.data ++ b.data := rfl

lemma readFail_message_ne (s : String) :
    "Failed to read from inotify fd: " ++ s ≠ "read() on inotify FD must never return 0" := by
  intro h
  have h1 := congrArg String.data h
  rw [string_data_append] at h1
  have h2 := congrArg List.head? h1
  simp at h2

lemma mapLookup_mapErase_self (k : Int) (m : List (Int × QDir)) :
    mapLookup k (mapErase k m) = none := by
  induction m with
  | nil => rfl
  | cons p rest ih =>
      rcases p with ⟨k2, v2⟩
      by_cases hk : k2 = k
      · simpa [mapErase, hk] using ih
      · simpa [mapErase, hk, mapLookup, Ne.symm hk] using ih

lemma mapLookup_mapErase_ne (k k2 : Int) (m : List (Int × QDir)) (h : k2 ≠ k) :
    mapLookup k2 (mapErase k m) = mapLookup k2 m := by
  induction m with
  | nil => rfl
  | cons p rest ih =>
      rcases p with ⟨k3, v3⟩
      by_cases hk : k3 = k
      · subst hk
        simpa [mapErase, mapLookup, h] using ih
      · by_cases hk2 : k2 = k3
        · simp [mapErase, hk, mapLookup, hk2]
        · simpa [mapErase, hk, mapLookup, hk2] using ih

lemma mapInsert_length_le (k : Int) (v : QDir) (m : List (Int × QDir)) :
    m.length ≤ (mapInsert k v m).length := by
  induction m with
  | nil => simp [mapInsert]
  | cons p rest ih =>
      rcases p with ⟨k2, v2⟩
      simp only [mapInsert]
      split
      · simp
      · split
        · simp
        · simp only [List.length_cons]
          omega

lemma mapInsert_length_of_none (k : Int) (v : QDir) (m : List (Int × QDir))
    (h : mapLookup k m = none) : (mapInsert k v m).length = m.length + 1 := by
  induction m with
  | nil => rfl
  | cons p rest ih =>
      rcases p with ⟨k2, v2⟩
      simp only [mapLookup] at h
      by_cases hk : k = k2
      · simp [hk] at h
      · rw [if_neg hk] at h
        simp only [mapInsert]
        split
        · simp
        · simp only [List.length_cons, ih h]

lemma processRecords_known (defaultDir : QDir) (recs : List RawRecord)
    (m : List (Int × QDir)) (h : ∀ r ∈ recs, (mapLookup r.wd m).isSome) :
    processRecords defaultDir recs m =
      (recs.map (fun r =>
        ⟨r.mask, ((mapLookup r.wd m).getD defaultDir).absolutePath ++ "/" ++ r.name⟩), m) := by
  induction recs with
  | nil => rfl
  | cons r rest ih =>
      obtain ⟨dir, hdir⟩ := Option.isSome_iff_exists.mp (h r (by simp))
      simp only [processRecords, mapFindOrInsert, hdir]
      rw [ih (fun q hq => h q (by simp [hq]))]
      simp [hdir]

lemma processRecords_fst_length (defaultDir : QDir) (recs : List RawRecord)
    (m : List (Int × QDir)) :
    (processRecords defaultDir recs m).1.length = recs.length := by
  induction recs generalizing m with
  | nil => rfl
  | cons r rest ih =>
      rcases hf : mapFindOrInsert defaultDir r.wd m with ⟨dir, m2⟩
      simp only [processRecords, hf]
      simp [ih m2]

lemma processRecords_snd_length_le (defaultDir : QDir) (recs : List RawRecord)
    (m : List (Int × QDir)) :
    m.length ≤ (processRecords defaultDir recs m).2.length := by
  induction recs generalizing m with
  | nil => simp [processRecords]
  | cons r rest ih =>
      rcases hf : mapFindOrInsert defaultDir r.wd m with ⟨dir, m2⟩
      have hm2 : m.length ≤ m2.length := by
        unfold mapFindOrInsert at hf
        rcases hl : mapLookup r.wd m with _ | v <;> rw [hl] at hf <;> cases hf
        · exact mapInsert_length_le _ _ _
        · exact Nat.le_refl _
      simp only [processRecords, hf]
      exact Nat.le_trans hm2 (ih m2)

lemma processRecords_snd_length_lt (defaultDir : QDir) (recs : List RawRecord)
    (m : List (Int × QDir)) (h : ∃ r ∈ recs, mapLookup r.wd m = none) :
    m.length < (processRecords defaultDir recs m).2.length := by
  induction recs with
  | nil => simp at h
  | cons r rest ih =>
      by_cases hl : mapLookup r.wd m = none
      · simp only [processRecords, mapFindOrInsert, hl]
        have h1 := mapInsert_length_of_none r.wd defaultDir m hl
        have h2 := processRecords_snd_length_le defaultDir rest (mapInsert r.wd defaultDir m)
        omega
      · obtain ⟨dir, hdir⟩ :=
          Option.isSome_iff_exists.mp (Option.ne_none_iff_isSome.mp hl)
        rcases h with ⟨q, hq, hqn⟩
        rcases List.mem_cons.mp hq with rfl | hq2
        · exact absurd hqn hl
        · simp only [processRecords, mapFindOrInsert, hdir]
          exact ih ⟨q, hq2, hqn⟩

/-! Unfolding lemmas for the bulk stop loop. -/

lemma stopWatchingAll_nil (rmWatch : Int → Except Nat Unit) (strerror : Nat → String)
    (d : PrivateData) (h : d.watchFdMap = []) :
    stopWatchingAll rmWatch strerror d = (true, [], { d with timerActive := false }) := by
  obtain ⟨w, t, m⟩ := d
  simp only at h
  subst h
  rw [stopWatchingAll]

lemma stopWatchingAll_cons_error (rmWatch : Int → Except Nat Unit) (strerror : Nat → String)
    (d : PrivateData) (fd : Int) (dir : QDir) (rest : List (Int × QDir)) (e : Nat)
    (h : d.watchFdMap = (fd, dir) :: rest) (he : rmWatch fd = .error e) :
    stopWatchingAll rmWatch strerror d =
      (false, ["Failed to stop watching: " ++ strerror e], d) := by
  obtain ⟨w, t, m⟩ := d
  simp only at h
  subst h
  rw [stopWatchingAll]
  simp [stopWatching1, he]

lemma stopWatchingAll_cons_ok (rmWatch : Int → Except Nat Unit) (strerror : Nat → String)
    (d : PrivateData) (fd : Int) (dir : QDir) (rest : List (Int × QDir))
    (h : d.watchFdMap = (fd, dir) :: rest) (hok : rmWatch fd = .ok ())
    (hnd : ∀ q ∈ rest, q.1 ≠ fd) :
    stopWatchingAll rmWatch strerror d =
      stopWatchingAll rmWatch strerror
        { d with watchFdMap := rest, timerActive := false } := by
  obtain ⟨w, t, m⟩ := d
  simp only at h
  subst h
  rw [stopWatchingAll]
  simp only [stopWatching1, hok, mapErase]
  have hrest : List.filter (fun p => !decide (p.1 = fd)) rest = rest :=
    List.filter_eq_self.mpr (fun q hq => by simpa using hnd q hq)
  simp [hrest]

lemma stopWatchingAll_cases (rmWatch : Int → Except Nat Unit) (strerror : Nat → String) :
    ∀ (n : Nat) (d : PrivateData), d.watchFdMap.length ≤ n →
    (d.watchFdMap.map Prod.fst).Nodup →
    ((stopWatchingAll rmWatch strerror d).1 = true ∧
      (stopWatchingAll rmWatch strerror d).2.2.watchFdMap = [] ∧
      (stopWatchingAll rmWatch strerror d).2.2.timerActive = false) ∨
    ((stopWatchingAll rmWatch strerror d).1 = false ∧
      ∃ pre fd dir post e,
        d.watchFdMap = pre ++ (fd, dir) :: post ∧
        (∀ q ∈ pre, rmWatch q.1 = .ok ()) ∧
        rmWatch fd = .error e ∧
        (stopWatchingAll rmWatch strerror d).2.2.watchFdMap = (fd, dir) :: post) := by
  intro n
  induction n with
  | zero =>
      intro d hlen hnd
      obtain ⟨w, t, m⟩ := d
      simp only at hlen
      have hmap : m = [] := by
        cases m with
        | nil => rfl
        | cons p l => simp at hlen
      subst hmap
      left
      rw [stopWatchingAll_nil rmWatch strerror ⟨w, t, []⟩ rfl]
      simp
  | succ n ih =>
      intro d hlen hnd
      obtain ⟨w, t, m⟩ := d
      simp only at hlen hnd
      rcases m with _ | ⟨⟨fd, dir⟩, rest⟩
      · left
        rw [stopWatchingAll_nil rmWatch strerror ⟨w, t, []⟩ rfl]
        simp
      · rcases hrw : rmWatch fd with e | u
        · right
          rw [stopWatchingAll_cons_error rmWatch strerror ⟨w, t, (fd, dir) :: rest⟩
            fd dir rest e rfl hrw]
          exact ⟨rfl, [], fd, dir, rest, e, rfl, by simp, hrw, rfl⟩
        · cases u
          simp only [List.map_cons, List.nodup_cons] at hnd
          have hnd2 : ∀ q ∈ rest, q.1 ≠ fd := by
            intro q hq hcontra
            exact hnd.1 (hcontra ▸ List.mem_map_of_mem Prod.fst hq)
          rw [stopWatchingAll_cons_ok rmWatch strerror ⟨w, t, (fd, dir) :: rest⟩
            fd dir rest rfl hrw hnd2]
          have hlen2 : (⟨w, false, rest⟩ : PrivateData).watchFdMap.length ≤ n := by
            simpa using Nat.le_of_succ_le_succ hlen
          have hnd3 : ((⟨w, false, rest⟩ : PrivateData).watchFdMap.map Prod.fst).Nodup := by
            simpa using hnd.2
          rcases ih ⟨w, false, rest⟩ hlen2 hnd3 with
            ⟨h1, h2, h3⟩ | ⟨h1, pre, fd2, dir2, post, e, hm, hpre, he, hres⟩
          · exact Or.inl ⟨h1, h2, h3⟩
          · right
            refine ⟨h1, (fd, dir) :: pre, fd2, dir2, post, e, ?_, ?_, he, hres⟩
            · simp only at hm
              rw [List.cons_append, hm]
            · intro q hq
              rcases List.mem_cons.mp hq with rfl | hq2
              · exact hrw
              · exact hpre q hq2

/-! Claim theorems. -/

/-- C1: for a buffer of concatenated raw records whose handles are all
registered, obtained by a successful read, poll/readEvents emits exactly one
semantic event per record whose flag bitmask matches the change category
(Changed) or the removal category (Removed), in buffer/record order, with each
event's path equal to the watched directory's absolute path + "/" + the
record's name, and emits nothing for records matching neither category. -/
theorem readEvents_emits_spec (strerror : Nat → String) (defaultDir : QDir)
    (d : PrivateData) (records : List RawRecord)
    (hknown : ∀ r ∈ records, (mapLookup r.wd d.watchFdMap).isSome) :
    readEvents strerror defaultDir (.data records) d =
      .ok (records.filterMap (specEmission d.watchFdMap), d) := by
  have hp := processRecords_known defaultDir records d.watchFdMap hknown
  simp only [readEvents, readEventsFromFd, hp]
  rw [List.filterMap_map]
  have hcong : records.filterMap (classifyEvent ∘ (fun r : RawRecord =>
      (⟨r.mask, ((mapLookup r.wd d.watchFdMap).getD defaultDir).absolutePath ++ "/" ++
        r.name⟩ : INotifyEvent))) =
      records.filterMap (specEmission d.watchFdMap) :=
    List.filterMap_congr (fun r hr => by
      obtain ⟨dir, hdir⟩ := Option.isSome_iff_exists.mp (hknown r hr)
      simp [classifyEvent, specEmission, hdir, Function.comp])
  rw [hcong]

/-- Witness for C1 on a concrete buffer of three records: a close-after-write
record, a delete record, and a record matching neither mask. -/
theorem readEvents_emits_spec_witness :
    readEvents (fun _ => "") ⟨"/cwd"⟩
      (.data [⟨1, IN_CLOSE_WRITE, 8, "a.txt"⟩, ⟨1, IN_DELETE, 8, "b.txt"⟩, ⟨1, 4, 4, "c"⟩])
      ⟨[], true, [(1, ⟨"/tmp/w"⟩)]⟩ =
      .ok ([.fileChanged "/tmp/w/a.txt", .fileRemoved "/tmp/w/b.txt"],
           ⟨[], true, [(1, ⟨"/tmp/w"⟩)]⟩) := by
  rw [readEvents_emits_spec (fun _ => "") ⟨"/cwd"⟩ ⟨[], true, [(1, ⟨"/tmp/w"⟩)]⟩ _
    (by decide)]
  rfl

/-- C2: startWatching on a directory that does not exist on disk logs a
warning, returns true, and leaves the whole state, in particular the
handle-to-directory registration table, unchanged. -/
theorem startWatching_missing_directory_skips (fsExists : String → Bool)
    (addWatch : String → Except Nat Int) (strerror : Nat → String)
    (d : PrivateData) (directory : QDir)
    (h : fsExists directory.absolutePath = false) :
    startWatching1 fsExists addWatch strerror d directory =
      (true,
       ["Warning: directory " ++ directory.absolutePath ++ " does not exist, skipping"],
       d) := by
  simp [startWatching1, h]

/-- Witness for C2 on a concrete missing directory. -/
theorem startWatching_missing_directory_skips_witness :
    startWatching1 (fun _ => false) (fun _ => .ok 7) (fun _ => "")
      ⟨[], false, []⟩ ⟨"/nope"⟩ =
      (true, ["Warning: directory /nope does not exist, skipping"], ⟨[], false, []⟩) := by
  rw [startWatching_missing_directory_skips (fun _ => false) (fun _ => .ok 7) (fun _ => "")
    ⟨[], false, []⟩ ⟨"/nope"⟩ rfl]
  rfl

/-- C3 counterexample: with directories /a (handle 1) and /b (handle 2)
registered, after a successful stopWatching(1) a poll that reads a record
bearing the deregistered handle 1 with a change mask does NOT emit nothing:
operator[] on the map resolves the missing handle to a default-constructed
QDir (the process working directory, here /cwd), a fileChanged event with path
"/cwd/x.txt" is emitted, and handle 1 is even re-inserted into the table. -/
theorem stale_handle_poll_emits_cex :
    (stopWatching1 (fun _ => .ok ()) (fun _ => "")
        ⟨[], true, [(1, ⟨"/a"⟩), (2, ⟨"/b"⟩)]⟩ 1).2.2 =
      ⟨[], false, [(2, ⟨"/b"⟩)]⟩ ∧
    readEvents (fun _ => "") ⟨"/cwd"⟩ (.data [⟨1, IN_CLOSE_WRITE, 8, "x.txt"⟩])
      ⟨[], false, [(2, ⟨"/b"⟩)]⟩ =
      .ok ([.fileChanged "/cwd/x.txt"], ⟨[], false, [(1, ⟨"/cwd"⟩), (2, ⟨"/b"⟩)]⟩) :=
  ⟨rfl, rfl⟩

/-- C3 amended: a poll that reads a record bearing a handle absent from the
registration table (for instance one just deregistered) does not drop the
record: the defaulting map lookup inserts a default-constructed directory (the
process working directory) under that handle, and the record is then
classified like any other, with path defaultDir + "/" + name: a mask matching
the change category emits fileChanged, otherwise a mask matching the removal
category emits fileRemoved, and a mask matching neither emits nothing; in
every case the stale handle reappears in the table mapped to the default
directory. The behaviour is defined, but category-matching records still emit
an event. -/
theorem stale_handle_poll_defaulted_emission (strerror : Nat → String)
    (defaultDir : QDir) (d : PrivateData) (r : RawRecord)
    (hnone : mapLookup r.wd d.watchFdMap = none) :
    (r.mask &&& fileChangeEvents ≠ 0 →
      readEvents strerror defaultDir (.data [r]) d =
        .ok ([.fileChanged (defaultDir.absolutePath ++ "/" ++ r.name)],
             { d with watchFdMap := mapInsert r.wd defaultDir d.watchFdMap })) ∧
    (r.mask &&& fileChangeEvents = 0 → r.mask &&& fileRemovalEvents ≠ 0 →
      readEvents strerror defaultDir (.data [r]) d =
        .ok ([.fileRemoved (defaultDir.absolutePath ++ "/" ++ r.name)],
             { d with watchFdMap := mapInsert r.wd defaultDir d.watchFdMap })) ∧
    (r.mask &&& fileChangeEvents = 0 → r.mask &&& fileRemovalEvents = 0 →
      readEvents strerror defaultDir (.data [r]) d =
        .ok ([],
             { d with watchFdMap := mapInsert r.wd defaultDir d.watchFdMap })) := by
  refine ⟨fun hchange => ?_, fun hnc hrem => ?_, fun hnc hnr => ?_⟩
  · simp [readEvents, readEventsFromFd, processRecords, mapFindOrInsert, hnone,
      classifyEvent, hchange]
  · simp [readEvents, readEventsFromFd, processRecords, mapFindOrInsert, hnone,
      classifyEvent, hnc, hrem]
  · simp [readEvents, readEventsFromFd, processRecords, mapFindOrInsert, hnone,
      classifyEvent, hnc, hnr]

/-- Witness for the amended C3 at a concrete stale handle, exercising both
emitting categories: a close-after-write record emits fileChanged and a delete
record emits fileRemoved, each with the defaulted working-directory path. -/
theorem stale_handle_poll_defaulted_emission_witness :
    readEvents (fun _ => "") ⟨"/cwd"⟩ (.data [⟨1, 8, 8, "y.txt"⟩])
      ⟨[], false, [(2, ⟨"/b"⟩)]⟩ =
      .ok ([.fileChanged "/cwd/y.txt"], ⟨[], false, [(1, ⟨"/cwd"⟩), (2, ⟨"/b"⟩)]⟩) ∧
    readEvents (fun _ => "") ⟨"/cwd"⟩ (.data [⟨1, 512, 8, "z.txt"⟩])
      ⟨[], false, [(2, ⟨"/b"⟩)]⟩ =
      .ok ([.fileRemoved "/cwd/z.txt"], ⟨[], false, [(1, ⟨"/cwd"⟩), (2, ⟨"/b"⟩)]⟩) := by
  constructor
  · rw [(stale_handle_poll_defaulted_emission (fun _ => "") ⟨"/cwd"⟩
      ⟨[], false, [(2, ⟨"/b"⟩)]⟩ ⟨1, 8, 8, "y.txt"⟩ (by decide)).1 (by decide)]
    rfl
  · rw [(stale_handle_poll_defaulted_emission (fun _ => "") ⟨"/cwd"⟩
      ⟨[], false, [(2, ⟨"/b"⟩)]⟩ ⟨1, 512, 8, "z.txt"⟩ (by decide)).2.1 (by decide) (by decide)]
    rfl

/-- C4 counterexample: one invocation of the read/classify path mutates the
handle-to-directory mapping: a poll over a record bearing the unregistered
handle 5 inserts (5, default directory) into the previously empty table. -/
theorem readEvents_mutates_map_cex :
    readEvents (fun _ => "") ⟨"/cwd"⟩ (.data [⟨5, IN_CLOSE_WRITE, 8, "y.txt"⟩])
      ⟨[], true, []⟩ =
      .ok ([.fileChanged "/cwd/y.txt"], ⟨[], true, [(5, ⟨"/cwd"⟩)]⟩) ∧
    ([(5, (⟨"/cwd"⟩ : QDir))] : List (Int × QDir)) ≠ [] :=
  ⟨rfl, by decide⟩

/-- C4 amended: the read/classify path leaves the mapping unchanged exactly
when every record's handle is already registered; a record bearing an
unregistered handle makes the defaulting lookup insert a (handle, default
directory) entry, so the table after the poll then differs from the table
before. -/
theorem readEvents_map_unchanged_iff_known (strerror : Nat → String)
    (defaultDir : QDir) (d : PrivateData) (records : List RawRecord)
    (events : List SemanticEvent) (d2 : PrivateData)
    (h : readEvents strerror defaultDir (.data records) d = .ok (events, d2)) :
    d2.watchFdMap = d.watchFdMap ↔
      ∀ r ∈ records, (mapLookup r.wd d.watchFdMap).isSome := by
  have hd2 : d2.watchFdMap = (processRecords defaultDir records d.watchFdMap).2 := by
    simp only [readEvents, readEventsFromFd] at h
    cases h
    rfl
  constructor
  · intro heq
    by_contra hnot
    push_neg at hnot
    obtain ⟨r, hr, hrn⟩ := hnot
    have hn : mapLookup r.wd d.watchFdMap = none :=
      Option.not_isSome_iff_eq_none.mp hrn
    have hlt := processRecords_snd_length_lt defaultDir records d.watchFdMap ⟨r, hr, hn⟩
    rw [← hd2, heq] at hlt
    exact lt_irrefl _ hlt
  · intro hk
    rw [hd2, processRecords_known defaultDir records d.watchFdMap hk]

/-- Witness for the amended C4: with the only record's handle registered, the
table after the poll equals the table before. -/
theorem readEvents_map_unchanged_iff_known_witness :
    (⟨[], true, [(1, ⟨"/w"⟩)]⟩ : PrivateData).watchFdMap =
        (⟨[], true, [(1, ⟨"/w"⟩)]⟩ : PrivateData).watchFdMap ↔
      ∀ r ∈ [(⟨1, 8, 8, "a"⟩ : RawRecord)],
        (mapLookup r.wd (⟨[], true, [(1, ⟨"/w"⟩)]⟩ : PrivateData).watchFdMap).isSome :=
  readEvents_map_unchanged_iff_known (fun _ => "") ⟨"/cwd"⟩
    ⟨[], true, [(1, ⟨"/w"⟩)]⟩ [⟨1, 8, 8, "a"⟩]
    [.fileChanged "/w/a"] ⟨[], true, [(1, ⟨"/w"⟩)]⟩ rfl

/-- C5: a non-blocking read returning -1 with errno EAGAIN is not treated as
an error: poll emits zero events, raises nothing, and leaves the state
unchanged. -/
theorem eagain_poll_no_events (strerror : Nat → String) (defaultDir : QDir)
    (d : PrivateData) :
    readEvents strerror defaultDir (.failure EAGAIN) d = .ok ([], d) := rfl

/-- C6: a read returning exactly zero bytes makes poll raise the fatal
"must never return 0" error (the result is an error, so no events are emitted
in that poll), and this error differs from the fatal error raised for a read
failure other than EAGAIN. -/
theorem zero_byte_read_distinct_fatal (strerror : Nat → String) (defaultDir : QDir)
    (d : PrivateData) (e : Nat) (he : e ≠ EAGAIN) :
    readEvents strerror defaultDir .zeroBytes d =
      .error ⟨"read() on inotify FD must never return 0"⟩ ∧
    readEvents strerror defaultDir (.failure e) d =
      .error ⟨"Failed to read from inotify fd: " ++ strerror e⟩ ∧
    (⟨"Failed to read from inotify fd: " ++ strerror e⟩ : FileSystemWatcherError) ≠
      ⟨"read() on inotify FD must never return 0"⟩ := by
  refine ⟨rfl, ?_, ?_⟩
  · simp [readEvents, readEventsFromFd, he]
  · intro hcontra
    exact readFail_message_ne (strerror e)
      (congrArg FileSystemWatcherError.message hcontra)

/-- Witness for C6 at errno 5 (an I/O error, not EAGAIN). -/
theorem zero_byte_read_distinct_fatal_witness :
    readEvents (fun _ => "boom") ⟨"/cwd"⟩ .zeroBytes ⟨[], false, []⟩ =
      .error ⟨"read() on inotify FD must never return 0"⟩ ∧
    readEvents (fun _ => "boom") ⟨"/cwd"⟩ (.failure 5) ⟨[], false, []⟩ =
      .error ⟨"Failed to read from inotify fd: boom"⟩ ∧
    (⟨"Failed to read from inotify fd: boom"⟩ : FileSystemWatcherError) ≠
      ⟨"read() on inotify FD must never return 0"⟩ :=
  zero_byte_read_distinct_fatal (fun _ => "boom") ⟨"/cwd"⟩ ⟨[], false, []⟩ 5 (by decide)

/-- C7: on an existing directory whose OS-level registration fails,
startWatching logs the error and returns false with the state exactly as
before the call, so the handle-to-directory mapping is untouched:
registration failure is atomic. -/
theorem startWatching_failure_atomic (fsExists : String → Bool)
    (addWatch : String → Except Nat Int) (strerror : Nat → String)
    (d : PrivateData) (directory : QDir) (e : Nat)
    (hex : fsExists directory.absolutePath = true)
    (hfail : addWatch directory.absolutePath = .error e) :
    startWatching1 fsExists addWatch strerror d directory =
      (false, ["Failed to start watching: " ++ strerror e], d) := by
  simp [startWatching1, hex, hfail]

/-- Witness for C7 on a concrete existing directory with failing
registration. -/
theorem startWatching_failure_atomic_witness :
    startWatching1 (fun _ => true) (fun _ => .error 13) (fun _ => "Permission denied")
      ⟨[], true, [(1, ⟨"/a"⟩)]⟩ ⟨"/b"⟩ =
      (false, ["Failed to start watching: Permission denied"],
       ⟨[], true, [(1, ⟨"/a"⟩)]⟩) :=
  startWatching_failure_atomic (fun _ => true) (fun _ => .error 13)
    (fun _ => "Permission denied") ⟨[], true, [(1, ⟨"/a"⟩)]⟩ ⟨"/b"⟩ 13 rfl rfl

/-- C8: bulk stopWatching either fully succeeds, returning true with an empty
registration table and the polling timer stopped, or returns false at the
first failing deregistration, leaving exactly the failed entry and all
not-yet-processed entries in the table (the earlier, already-stopped entries
are gone); moreover a single stopWatching whose OS deregistration fails
returns false and leaves the state, in particular that handle's entry,
intact. Map keys are assumed pairwise distinct, as std::map guarantees. -/
theorem stopWatchingAll_dichotomy (rmWatch : Int → Except Nat Unit)
    (strerror : Nat → String) (d : PrivateData)
    (hnodup : (d.watchFdMap.map Prod.fst).Nodup) :
    ((stopWatchingAll rmWatch strerror d).1 = true →
      (stopWatchingAll rmWatch strerror d).2.2.watchFdMap = [] ∧
      (stopWatchingAll rmWatch strerror d).2.2.timerActive = false) ∧
    ((stopWatchingAll rmWatch strerror d).1 = false →
      ∃ pre fd dir post e,
        d.watchFdMap = pre ++ (fd, dir) :: post ∧
        (∀ q ∈ pre, rmWatch q.1 = .ok ()) ∧
        rmWatch fd = .error e ∧
        (stopWatchingAll rmWatch strerror d).2.2.watchFdMap = (fd, dir) :: post) ∧
    (∀ watchFd e, rmWatch watchFd = .error e →
      stopWatching1 rmWatch strerror d watchFd =
        (false, ["Failed to stop watching: " ++ strerror e], d)) := by
  rcases stopWatchingAll_cases rmWatch strerror d.watchFdMap.length d
      (Nat.le_refl _) hnodup with ⟨h1, h2, h3⟩ | ⟨h1, hrest⟩
  · refine ⟨fun _ => ⟨h2, h3⟩, fun hfalse => ?_,
      fun watchFd e he => by simp [stopWatching1, he]⟩
    rw [h1] at hfalse
    exact absurd hfalse (by simp)
  · refine ⟨fun htrue => ?_, fun _ => hrest,
      fun watchFd e he => by simp [stopWatching1, he]⟩
    rw [h1] at htrue
    exact absurd htrue (by simp)

/-- Witness for C8: three registered directories with deregistration failing
on the second handle. -/
theorem stopWatchingAll_dichotomy_witness :
    ((stopWatchingAll (fun k => if k = 2 then .error 22 else .ok ()) (fun _ => "boom")
        ⟨[], true, [(1, ⟨"/a"⟩), (2, ⟨"/b"⟩), (3, ⟨"/c"⟩)]⟩).1 = true →
      (stopWatchingAll (fun k => if k = 2 then .error 22 else .ok ()) (fun _ => "boom")
        ⟨[], true, [(1, ⟨"/a"⟩), (2, ⟨"/b"⟩), (3, ⟨"/c"⟩)]⟩).2.2.watchFdMap = [] ∧
      (stopWatchingAll (fun k => if k = 2 then .error 22 else .ok ()) (fun _ => "boom")
        ⟨[], true, [(1, ⟨"/a"⟩), (2, ⟨"/b"⟩), (3, ⟨"/c"⟩)]⟩).2.2.timerActive = false) ∧
    ((stopWatchingAll (fun k => if k = 2 then .error 22 else .ok ()) (fun _ => "boom")
        ⟨[], true, [(1, ⟨"/a"⟩), (2, ⟨"/b"⟩), (3, ⟨"/c"⟩)]⟩).1 = false →
      ∃ pre fd dir post e,
        (⟨[], true, [(1, ⟨"/a"⟩), (2, ⟨"/b"⟩), (3, ⟨"/c"⟩)]⟩ :
            PrivateData).watchFdMap = pre ++ (fd, dir) :: post ∧
        (∀ q ∈ pre, (if q.1 = 2 then Except.error 22 else Except.ok ()) = .ok ()) ∧
        (if fd = 2 then Except.error 22 else Except.ok ()) = .error e ∧
        (stopWatchingAll (fun k => if k = 2 then .error 22 else .ok ()) (fun _ => "boom")
          ⟨[], true, [(1, ⟨"/a"⟩), (2, ⟨"/b"⟩), (3, ⟨"/c"⟩)]⟩).2.2.watchFdMap =
          (fd, dir) :: post) ∧
    (∀ watchFd e,
      (if watchFd = 2 then Except.error 22 else Except.ok ()) = .error e →
      stopWatching1 (fun k => if k = 2 then .error 22 else .ok ()) (fun _ => "boom")
        ⟨[], true, [(1, ⟨"/a"⟩), (2, ⟨"/b"⟩), (3, ⟨"/c"⟩)]⟩ watchFd =
        (false, ["Failed to stop watching: boom"],
         ⟨[], true, [(1, ⟨"/a"⟩), (2, ⟨"/b"⟩), (3, ⟨"/c"⟩)]⟩)) :=
  stopWatchingAll_dichotomy (fun k => if k = 2 then .error 22 else .ok ())
    (fun _ => "boom") ⟨[], true, [(1, ⟨"/a"⟩), (2, ⟨"/b"⟩), (3, ⟨"/c"⟩)]⟩ (by decide)

/-- C9: a successful stopWatching(handle) removes exactly that handle from the
mapping and stops the polling timer unconditionally, even when other
directories remain registered (the state d is arbitrary, so in particular the
timer is disarmed while other entries stay in the table). -/
theorem stopWatching_removes_and_disarms (rmWatch : Int → Except Nat Unit)
    (strerror : Nat → String) (d : PrivateData) (watchFd : Int)
    (hok : rmWatch watchFd = .ok ()) :
    stopWatching1 rmWatch strerror d watchFd =
      (true, [], { d with watchFdMap := mapErase watchFd d.watchFdMap,
                          timerActive := false }) ∧
    mapLookup watchFd (mapErase watchFd d.watchFdMap) = none ∧
    ∀ k, k ≠ watchFd →
      mapLookup k (mapErase watchFd d.watchFdMap) = mapLookup k d.watchFdMap :=
  ⟨by simp [stopWatching1, hok], mapLookup_mapErase_self _ _,
   fun k hk => mapLookup_mapErase_ne watchFd k d.watchFdMap hk⟩

/-- Witness for C9: stopping handle 1 disarms the timer even though handle 2
remains registered. -/
theorem stopWatching_removes_and_disarms_witness :
    stopWatching1 (fun _ => .ok ()) (fun _ => "")
        ⟨[], true, [(1, ⟨"/a"⟩), (2, ⟨"/b"⟩)]⟩ 1 =
      (true, [], ⟨[], false, [(2, ⟨"/b"⟩)]⟩) ∧
    mapLookup 1 (mapErase 1 [(1, ⟨"/a"⟩), (2, ⟨"/b"⟩)]) = none ∧
    ∀ k, k ≠ 1 →
      mapLookup k (mapErase 1 [(1, ⟨"/a"⟩), (2, ⟨"/b"⟩)]) =
        mapLookup k [(1, ⟨"/a"⟩), (2, ⟨"/b"⟩)] :=
  stopWatching_removes_and_disarms (fun _ => .ok ()) (fun _ => "")
    ⟨[], true, [(1, ⟨"/a"⟩), (2, ⟨"/b"⟩)]⟩ 1 rfl

/-- C10: every parsed record yields at most one emitted semantic event; in
particular a record whose mask matches both the change category and the
removal category (for example IN_MOVED_FROM, which lies in both masks) takes
the change branch first, so only fileChanged is emitted and never fileRemoved
in addition. -/
theorem at_most_one_event_per_record (strerror : Nat → String) (defaultDir : QDir) :
    (∀ (d : PrivateData) (records : List RawRecord) (events : List SemanticEvent)
        (d2 : PrivateData),
        readEvents strerror defaultDir (.data records) d = .ok (events, d2) →
        events.length ≤ records.length) ∧
    (∀ (d : PrivateData) (r : RawRecord) (dir : QDir),
        mapLookup r.wd d.watchFdMap = some dir →
        r.mask &&& fileChangeEvents ≠ 0 →
        r.mask &&& fileRemovalEvents ≠ 0 →
        readEvents strerror defaultDir (.data [r]) d =
          .ok ([.fileChanged (dir.absolutePath ++ "/" ++ r.name)], d)) := by
  constructor
  · intro d records events d2 h
    simp only [readEvents, readEventsFromFd] at h
    cases h
    calc (List.filterMap classifyEvent
          (processRecords defaultDir records d.watchFdMap).1).length
        ≤ (processRecords defaultDir records d.watchFdMap).1.length :=
          List.length_filterMap_le _ _
      _ = records.length := processRecords_fst_length _ _ _
  · intro d r dir hdir hc hrem
    simp [readEvents, readEventsFromFd, processRecords, mapFindOrInsert, hdir,
      classifyEvent, hc]

/-- Witness for C10: a moved-from record (mask in both categories) emits only
fileChanged. -/
theorem at_most_one_event_per_record_witness :
    readEvents (fun _ => "") ⟨"/cwd"⟩ (.data [⟨1, IN_MOVED_FROM, 8, "m.txt"⟩])
      ⟨[], true, [(1, ⟨"/tmp/w"⟩)]⟩ =
      .ok ([.fileChanged "/tmp/w/m.txt"], ⟨[], true, [(1, ⟨"/tmp/w"⟩)]⟩) :=
  (at_most_one_event_per_record (fun _ => "") ⟨"/cwd"⟩).2
    ⟨[], true, [(1, ⟨"/tmp/w"⟩)]⟩ ⟨1, IN_MOVED_FROM, 8, "m.txt"⟩ ⟨"/tmp/w"⟩
    rfl (by decide) (by decide)

end FSWatcher
